import Mathlib

/-!
# Lead Management System — shallow embedding and verification

Shallow embedding of the status-progression core of the lead-management
backend (`backend/models/Lead.js`, `backend/controllers/leadController.js`,
`backend/utils/validators.js`), with proofs of the specified properties.

Conventions of the embedding:
* timestamps are `Nat` (milliseconds since epoch, as JS `Date.getTime()`);
  differences of timestamps are `Int` (JS `Date - Date` is a number that can
  be negative);
* JS strings are Lean `String`s; the status enum stays a string, checked
  against the `validStatuses` list exactly as the source does;
* `null`/`undefined`/absent fields are `Option`;
* a thrown JS `Error` is the `.error` branch of `Except String`;
* a JS plain object used as a dictionary (`metrics.timeInEachStatus`) is an
  association list with overwrite-on-assignment semantics (`objSet`/`objGet`);
* Mongoose's pre-save middleware is an explicit function from the document
  state (plus the `isNew` / `isModified('status')` flags and the current
  clock) to the saved document state.  Mongoose marks a path modified only
  when the assigned value differs from the current one, so the save that
  `updateStatus` triggers runs with the status path marked modified exactly
  when the target status differs from the status the lead already holds;
* `save()` re-validates the document; `saveLead` models the validators on
  the paths the status engine writes (the status enum and the 200-character
  bound on a history entry's notes, Lead.js lines 108-122).  The validators
  of the contact fields are not modelled: a status transition never
  modifies them, and a stored document already satisfies them.
-/

namespace LeadMgmt

/-- One entry of `statusHistory` (Lead.js lines 108–122): a status value,
the timestamp of the change, and an optional note. -/
structure HistoryEntry where
  status : String
  timestamp : Nat
  notes : Option String := none
deriving Repr, DecidableEq

/-- The sparse `statusTimestamps` record (Lead.js lines 125–129): first
time each of the three later stages was reached, absent until set. -/
structure StatusTimestamps where
  connectedAt : Option Nat := none
  qualifiedAt : Option Nat := none
  convertedAt : Option Nat := none
deriving Repr, DecidableEq

/-- The Lead document, restricted to the fields the status engine and the
analytics read or write.  `createdAt` is the store-assigned creation
timestamp. -/
structure Lead where
  id : Nat
  name : String
  email : String
  phone : String
  status : String
  statusHistory : List HistoryEntry
  statusTimestamps : StatusTimestamps
  createdAt : Nat
deriving Repr, DecidableEq

/-- The status enum of the schema and of `updateStatus`
(Lead.js lines 103 and 369). -/
def validStatuses : List String := ["new", "connected", "qualified", "converted"]

/-! ## Phone normalization (validators.js `formatPhoneNumber`, Lead.js pre-save)

The source normalizes with `phone.replace(/(?!^\+)\D/g, '')`: every
non-digit character is removed, except a `+` standing at position 0 of the
string, which the negative lookahead protects.  Digits are kept everywhere.
-/

/-- Core of the regex replace on the character list: the head survives when
it is a digit or a `+` (position 0 is the only place the lookahead protects
a `+`); past the head only digits survive. -/
def formatPhoneChars : List Char → List Char
  | [] => []
  | c :: rest =>
      (if c.isDigit || c = '+' then [c] else []) ++ rest.filter Char.isDigit

/-- Function `formatPhoneNumber` of validators.js lines 83–86 (the same replace is
applied by the pre-save middleware, Lead.js line 165). -/
def formatPhoneNumber (phone : String) : String :=
  String.mk (formatPhoneChars phone.toList)

theorem filter_isDigit_of_all {l : List Char}
    (h : ∀ c ∈ l, Char.isDigit c) : l.filter Char.isDigit = l :=
  List.filter_eq_self.mpr (fun c hc => by simpa using h c hc)

theorem formatPhoneChars_idem (l : List Char) :
    formatPhoneChars (formatPhoneChars l) = formatPhoneChars l := by
  cases l with
  | nil => rfl
  | cons c rest =>
    by_cases hc : c.isDigit || c = '+'
    · have hrest : (rest.filter Char.isDigit).filter Char.isDigit
          = rest.filter Char.isDigit := by
        apply filter_isDigit_of_all
        intro d hd
        exact (List.mem_filter.mp hd).2
      simp [formatPhoneChars, hc, hrest]
    · simp only [formatPhoneChars, hc, if_neg, Bool.false_eq_true,
        not_false_eq_true, List.nil_append]
      cases hf : rest.filter Char.isDigit with
      | nil => simp [formatPhoneChars]
      | cons d ds =>
        have hall : ∀ x ∈ d :: ds, Char.isDigit x := by
          intro x hx
          have : x ∈ rest.filter Char.isDigit := hf ▸ hx
          exact (List.mem_filter.mp this).2
        have hd : d.isDigit := hall d (by simp)
        have hds : ds.filter Char.isDigit = ds :=
          filter_isDigit_of_all (fun x hx => hall x (by simp [hx]))
        simp [formatPhoneChars, hd, hds]

/-- C9: Phone normalization (strip every non-digit character, keeping a
single leading `+` if present) is idempotent: normalizing an
already-normalized phone number yields the same string. -/
theorem formatPhoneNumber_idempotent (phone : String) :
    formatPhoneNumber (formatPhoneNumber phone) = formatPhoneNumber phone := by
  unfold formatPhoneNumber
  have : (String.mk (formatPhoneChars phone.toList)).toList
      = formatPhoneChars phone.toList := rfl
  rw [this, formatPhoneChars_idem]

/-! ## The pre-save status engine (Lead.js lines 161–245)

The block of the pre-save middleware that handles status changes and
history tracking (lines 193–242), as a function of the document, the
Mongoose flags `isNew` and `isModified('status')`, the stashed
`_statusNotes`, and the clock `now`. -/

/-- The `switch (currentStatus)` of Lead.js lines 225–241: conditionally
set the stage timestamp for the status just reached, never overwriting a
timestamp that is already set. -/
def applyStatusTimestamps (ts : StatusTimestamps) (currentStatus : String)
    (now : Nat) : StatusTimestamps :=
  if currentStatus = "connected" then
    if ts.connectedAt = none then { ts with connectedAt := some now } else ts
  else if currentStatus = "qualified" then
    if ts.qualifiedAt = none then { ts with qualifiedAt := some now } else ts
  else if currentStatus = "converted" then
    if ts.convertedAt = none then { ts with convertedAt := some now } else ts
  else ts

/-- Lead.js lines 193–242: when the status path is modified or the document
is new, seed (new document) or append to `statusHistory`, attaching the
stashed note on the append path, then update `statusTimestamps`. -/
def preSaveStatus (l : Lead) (isNew statusModified : Bool)
    (statusNotes : Option String) (now : Nat) : Lead :=
  if statusModified || isNew then
    let currentStatus := l.status
    let l' :=
      if isNew then
        { l with statusHistory := [{ status := currentStatus, timestamp := now }] }
      else
        { l with statusHistory :=
            l.statusHistory ++ [{ status := currentStatus, timestamp := now
                                , notes := statusNotes }] }
    { l' with statusTimestamps :=
        applyStatusTimestamps l'.statusTimestamps currentStatus now }
  else l

/-- Notes bound of the `statusHistory.notes` path: at most 200 characters
when present (Lead.js lines 118–121). -/
def notesWithinLimit : Option String → Bool
  | none => true
  | some n => decide (n.length ≤ 200)

/-- Validation of one history entry (Lead.js lines 108–122): the status is
required and must be in the enum; the notes, when present, are bounded. -/
def validHistoryEntry (e : HistoryEntry) : Bool :=
  validStatuses.contains e.status && notesWithinLimit e.notes

/-- Validation run by `save()` on the paths the status engine writes: the
document's status and every history entry must satisfy the schema.  A
violation (for example a history note longer than 200 characters) rejects
the save with a `ValidationError`.  The validators of the contact fields
are not modelled: a status transition never modifies them, and a stored
document already satisfies them. -/
def saveLead (l : Lead) : Except String Lead :=
  if validStatuses.contains l.status && l.statusHistory.all validHistoryEntry then
    .ok l
  else
    .error "Lead validation failed"

/-- Method `leadSchema.methods.updateStatus` (Lead.js lines 368–384): reject a
status outside the enum, otherwise assign `this.status`, stash the note for
the middleware when one is given and history is non-empty, and save.
Mongoose marks the status path modified only when the assigned value
differs from the current one, so the pre-save middleware runs with
`isModified('status')` true exactly when the target differs from the
status the lead already holds; the save then re-validates the document. -/
def updateStatus (l : Lead) (newStatus : String) (notes : Option String)
    (now : Nat) : Except String Lead :=
  if validStatuses.contains newStatus then
    let statusModified := l.status != newStatus
    let l' := { l with status := newStatus }
    let statusNotes :=
      if notes.isSome && decide (l'.statusHistory.length > 0) then notes else none
    saveLead (preSaveStatus l' false statusModified statusNotes now)
  else
    .error ("Invalid status: " ++ newStatus ++ ". Must be one of: "
      ++ String.intercalate ", " validStatuses)

/-- Construction of a lead (controller `createLead` + first save): the
controller never passes a status, so the schema default `"new"` applies
(Lead.js line 104); the first save runs the middleware with `isNew = true`,
which seeds the history and normalizes the phone (Lead.js lines 163–166,
199–203). -/
def constructLead (id : Nat) (name email phone : String) (createdAt : Nat) : Lead :=
  let l : Lead :=
    { id := id, name := name, email := email
    , phone := formatPhoneNumber phone
    , status := "new", statusHistory := [], statusTimestamps := {}
    , createdAt := createdAt }
  preSaveStatus l true false none createdAt

/-- A sequence of status transitions via `updateStatus`, each given as the
target status, an optional note and the clock value at that transition;
stops at the first thrown error. -/
def applyTransitions (l : Lead) :
    List (String × Option String × Nat) → Except String Lead
  | [] => .ok l
  | (s, notes, t) :: rest =>
    match updateStatus l s notes t with
    | .ok l' => applyTransitions l' rest
    | .error e => .error e

theorem updateStatus_eq_of_valid (l : Lead) (s : String) (notes : Option String)
    (t : Nat) (hs : validStatuses.contains s) :
    updateStatus l s notes t
      = saveLead (preSaveStatus { l with status := s } false (l.status != s)
          (if notes.isSome && decide (l.statusHistory.length > 0) then notes
           else none) t) := by
  have hs' : s ∈ validStatuses := by simpa using hs
  simp [updateStatus, hs']

theorem saveLead_ok (l l' : Lead) (h : saveLead l = .ok l') : l' = l := by
  unfold saveLead at h
  split_ifs at h
  exact ((Except.ok.injEq _ _).mp h).symm

theorem saveLead_ok_of_valid (l : Lead) (h1 : validStatuses.contains l.status)
    (h2 : l.statusHistory.all validHistoryEntry) : saveLead l = .ok l := by
  unfold saveLead
  rw [if_pos (by rw [h1, h2]; rfl)]

theorem preSaveStatus_status (l : Lead) (isNew statusModified : Bool)
    (statusNotes : Option String) (now : Nat) :
    (preSaveStatus l isNew statusModified statusNotes now).status = l.status := by
  unfold preSaveStatus
  split_ifs <;> rfl

theorem preSaveStatus_history_append (l : Lead) (sn : Option String) (now : Nat) :
    (preSaveStatus l false true sn now).statusHistory
      = l.statusHistory ++ [{ status := l.status, timestamp := now, notes := sn }] := by
  simp [preSaveStatus]

theorem preSaveStatus_not_modified (l : Lead) (sn : Option String) (now : Nat) :
    preSaveStatus l false false sn now = l := by
  simp [preSaveStatus]

/-- Each transition target differs from the lead's current status at the
time it is applied (a successful transition sets the status to its target,
so the running current status is the previous target). -/
def allChanging : String → List (String × Option String × Nat) → Bool
  | _, [] => true
  | cur, (s, _, _) :: rest => (cur != s) && allChanging s rest

theorem applyTransitions_changing (l : Lead)
    (ts : List (String × Option String × Nat))
    (hstat : validStatuses.contains l.status)
    (hhist : l.statusHistory.all validHistoryEntry)
    (hv : ∀ p ∈ ts, validStatuses.contains p.1)
    (hn : ∀ p ∈ ts, notesWithinLimit p.2.1)
    (hc : allChanging l.status ts) :
    ∃ l', applyTransitions l ts = .ok l'
      ∧ l'.statusHistory.length = l.statusHistory.length + ts.length := by
  induction ts generalizing l with
  | nil => exact ⟨l, rfl, rfl⟩
  | cons p rest ih =>
    obtain ⟨s, notes, t⟩ := p
    have hs : validStatuses.contains s := hv (s, notes, t) (List.mem_cons_self _ _)
    have hnote : notesWithinLimit notes := hn (s, notes, t) (List.mem_cons_self _ _)
    have hc' : ((l.status != s) && allChanging s rest) = true := by
      simpa [allChanging] using hc
    have hchange : (l.status != s) = true := ((Bool.and_eq_true _ _).mp hc').1
    have hcrest : allChanging s rest := ((Bool.and_eq_true _ _).mp hc').2
    set sn := (if notes.isSome && decide (l.statusHistory.length > 0) then notes
      else none) with hsn
    have hsnok : notesWithinLimit sn := by
      rw [hsn]
      split_ifs
      · exact hnote
      · rfl
    set l1 := preSaveStatus { l with status := s } false (l.status != s) sn t with hl1
    have hl1hist : l1.statusHistory
        = l.statusHistory ++ [{ status := s, timestamp := t, notes := sn }] := by
      rw [hl1, hchange, preSaveStatus_history_append]
    have hl1stat : l1.status = s := by rw [hl1, preSaveStatus_status]
    have hl1valid : l1.statusHistory.all validHistoryEntry := by
      rw [hl1hist, List.all_append]
      refine (Bool.and_eq_true _ _).mpr ⟨hhist, ?_⟩
      have hs' : s ∈ validStatuses := by simpa using hs
      simp [validHistoryEntry, hs', hsnok]
    have hsave : updateStatus l s notes t = .ok l1 := by
      rw [updateStatus_eq_of_valid l s notes t hs, ← hsn, ← hl1]
      exact saveLead_ok_of_valid l1 (by rw [hl1stat]; exact hs) hl1valid
    obtain ⟨l', hrun, hlen⟩ := ih l1 (by rw [hl1stat]; exact hs) hl1valid
      (fun q hq => hv q (List.mem_cons_of_mem _ hq))
      (fun q hq => hn q (List.mem_cons_of_mem _ hq))
      (by rw [hl1stat]; exact hcrest)
    refine ⟨l', ?_, ?_⟩
    · simp only [applyTransitions, hsave]
      exact hrun
    · have h1 : l1.statusHistory.length = l.statusHistory.length + 1 := by
        rw [hl1hist]; simp
      rw [hlen, h1, List.length_cons]
      omega

/-- C1 counterexample: on a freshly constructed lead, the sequence of
N = 2 valid transitions `connected, connected` — the second a repeat of
the status the lead already holds — leaves `statusHistory` with 2 entries,
not N + 1 = 3: Mongoose does not mark the status path modified when it is
assigned the value it already holds, so the pre-save append (guarded by
`isModified` at Lead.js line 194) is skipped on the repeat. -/
theorem statusHistory_repeat_counterexample :
    applyTransitions (constructLead 1 "Jane Doe" "jane@x.com" "5551234567" 0)
        [("connected", none, 5), ("connected", none, 9)]
      = .ok (⟨1, "Jane Doe", "jane@x.com", "5551234567", "connected",
          [⟨"new", 0, none⟩, ⟨"connected", 5, none⟩], ⟨some 5, none, none⟩, 0⟩ : Lead)
    ∧ (⟨1, "Jane Doe", "jane@x.com", "5551234567", "connected",
          [⟨"new", 0, none⟩, ⟨"connected", 5, none⟩], ⟨some 5, none, none⟩, 0⟩
          : Lead).statusHistory.length ≠ 2 + 1 :=
  ⟨by rfl, by decide⟩

/-- C1 amended: a transition to the status the lead already holds appends
no history entry — on a valid document it is a complete no-op — while a
sequence of N transitions whose every target differs from the lead's
current status at the time it is applied (each with a valid status value
and any note within the 200-character bound) succeeds and leaves a freshly
constructed lead with a statusHistory of length exactly N + 1. -/
theorem statusHistory_length_after_changing_transitions :
    (∀ (l : Lead) (notes : Option String) (now : Nat),
        validStatuses.contains l.status
        → l.statusHistory.all validHistoryEntry
        → updateStatus l l.status notes now = .ok l)
    ∧ ∀ (id : Nat) (name email phone : String) (createdAt : Nat)
        (ts : List (String × Option String × Nat)),
        (∀ p ∈ ts, validStatuses.contains p.1)
        → (∀ p ∈ ts, notesWithinLimit p.2.1)
        → allChanging "new" ts
        → ∃ l', applyTransitions (constructLead id name email phone createdAt) ts
              = .ok l'
            ∧ l'.statusHistory.length = ts.length + 1 := by
  constructor
  · intro l notes now h1 h2
    rw [updateStatus_eq_of_valid l l.status notes now h1]
    have e : (l.status != l.status) = false := by simp
    rw [e, preSaveStatus_not_modified]
    have e2 : ({ l with status := l.status } : Lead) = l := rfl
    rw [e2]
    exact saveLead_ok_of_valid l h1 h2
  · intro id name email phone createdAt ts hv hn hc
    have hst : (constructLead id name email phone createdAt).status = "new" := by
      rw [constructLead, preSaveStatus_status]
    have hh : (constructLead id name email phone createdAt).statusHistory
        = [{ status := "new", timestamp := createdAt, notes := none }] := by
      simp [constructLead, preSaveStatus]
    obtain ⟨l', hrun, hlen⟩ := applyTransitions_changing
      (constructLead id name email phone createdAt) ts
      (by rw [hst]; decide)
      (by rw [hh]; simp [validHistoryEntry, notesWithinLimit, validStatuses])
      hv hn (by rw [hst]; exact hc)
    refine ⟨l', hrun, ?_⟩
    have h1len : (constructLead id name email phone createdAt).statusHistory.length
        = 1 := by rw [hh]; rfl
    rw [hlen, h1len]
    omega

/-- Witness for the amended C1: a same-status transition on a connected
lead with a valid history returns it unchanged, and the changing sequence
`connected, qualified` on a fresh lead yields 2 + 1 history entries. -/
theorem statusHistory_length_after_changing_transitions_witness :
    validStatuses.contains (⟨3, "Amy Pond", "amy@x.com", "+15551234567", "connected",
        [⟨"new", 0, none⟩, ⟨"connected", 4, none⟩], ⟨some 4, none, none⟩, 0⟩
        : Lead).status
    ∧ updateStatus
        (⟨3, "Amy Pond", "amy@x.com", "+15551234567", "connected",
          [⟨"new", 0, none⟩, ⟨"connected", 4, none⟩], ⟨some 4, none, none⟩, 0⟩ : Lead)
        (⟨3, "Amy Pond", "amy@x.com", "+15551234567", "connected",
          [⟨"new", 0, none⟩, ⟨"connected", 4, none⟩], ⟨some 4, none, none⟩, 0⟩
          : Lead).status
        none 7
      = .ok (⟨3, "Amy Pond", "amy@x.com", "+15551234567", "connected",
          [⟨"new", 0, none⟩, ⟨"connected", 4, none⟩], ⟨some 4, none, none⟩, 0⟩ : Lead)
    ∧ allChanging "new" [("connected", none, 5), ("qualified", none, 9)]
    ∧ ∃ l', applyTransitions (constructLead 2 "Rory Will" "rory@x.com" "5550001111" 0)
          [("connected", none, 5), ("qualified", none, 9)] = .ok l'
        ∧ l'.statusHistory.length = 2 + 1 :=
  ⟨by decide,
    (statusHistory_length_after_changing_transitions).1
      (⟨3, "Amy Pond", "amy@x.com", "+15551234567", "connected",
        [⟨"new", 0, none⟩, ⟨"connected", 4, none⟩], ⟨some 4, none, none⟩, 0⟩ : Lead)
      none 7 (by decide) (by decide),
    by decide,
    (statusHistory_length_after_changing_transitions).2
      2 "Rory Will" "rory@x.com" "5550001111" 0
      [("connected", none, 5), ("qualified", none, 9)]
      (by decide) (by decide) (by decide)⟩

/-- C3: for every construction input, the constructed lead has status
`"new"`, a one-entry history whose entry carries status `"new"` (and the
creation time, no note), and an empty `statusTimestamps` record. -/
theorem constructLead_initial_state
    (id : Nat) (name email phone : String) (createdAt : Nat) :
    (constructLead id name email phone createdAt).status = "new"
    ∧ (constructLead id name email phone createdAt).statusHistory
        = [{ status := "new", timestamp := createdAt, notes := none }]
    ∧ (constructLead id name email phone createdAt).statusTimestamps
        = { connectedAt := none, qualifiedAt := none, convertedAt := none } := by
  refine ⟨rfl, ?_, ?_⟩ <;> simp [constructLead, preSaveStatus, applyStatusTimestamps]

theorem applyStatusTimestamps_preserves (ts : StatusTimestamps) (cs : String)
    (now : Nat) :
    (∀ t, ts.connectedAt = some t
        → (applyStatusTimestamps ts cs now).connectedAt = some t)
    ∧ (∀ t, ts.qualifiedAt = some t
        → (applyStatusTimestamps ts cs now).qualifiedAt = some t)
    ∧ (∀ t, ts.convertedAt = some t
        → (applyStatusTimestamps ts cs now).convertedAt = some t) := by
  unfold applyStatusTimestamps
  refine ⟨fun t ht => ?_, fun t ht => ?_, fun t ht => ?_⟩ <;>
    split_ifs <;> simp_all

theorem preSaveStatus_preserves_timestamps (l : Lead) (isNew sm : Bool)
    (sn : Option String) (now : Nat) :
    (∀ t, l.statusTimestamps.connectedAt = some t
        → (preSaveStatus l isNew sm sn now).statusTimestamps.connectedAt = some t)
    ∧ (∀ t, l.statusTimestamps.qualifiedAt = some t
        → (preSaveStatus l isNew sm sn now).statusTimestamps.qualifiedAt = some t)
    ∧ (∀ t, l.statusTimestamps.convertedAt = some t
        → (preSaveStatus l isNew sm sn now).statusTimestamps.convertedAt = some t) := by
  have hp := applyStatusTimestamps_preserves l.statusTimestamps l.status now
  unfold preSaveStatus
  split_ifs
  · exact ⟨hp.1, hp.2.1, hp.2.2⟩
  · exact ⟨hp.1, hp.2.1, hp.2.2⟩
  · exact ⟨fun _ h => h, fun _ h => h, fun _ h => h⟩

theorem updateStatus_preserves_timestamps (l : Lead) (s : String)
    (notes : Option String) (now : Nat) (l' : Lead)
    (h : updateStatus l s notes now = .ok l') :
    (∀ t, l.statusTimestamps.connectedAt = some t
        → l'.statusTimestamps.connectedAt = some t)
    ∧ (∀ t, l.statusTimestamps.qualifiedAt = some t
        → l'.statusTimestamps.qualifiedAt = some t)
    ∧ (∀ t, l.statusTimestamps.convertedAt = some t
        → l'.statusTimestamps.convertedAt = some t) := by
  by_cases hs : validStatuses.contains s
  · rw [updateStatus_eq_of_valid l s notes now hs] at h
    obtain rfl := saveLead_ok _ _ h
    exact preSaveStatus_preserves_timestamps { l with status := s } false
      (l.status != s) _ now
  · have hs' : ¬ s ∈ validStatuses := by simpa using hs
    simp [updateStatus, hs'] at h

/-- C2: each stage timestamp (`connectedAt`, `qualifiedAt`, `convertedAt`)
is set-once: when it holds a value, no sequence of subsequent transitions —
into that stage or any other — ever changes it. -/
theorem statusTimestamps_set_once (l : Lead)
    (ts : List (String × Option String × Nat)) (l' : Lead)
    (hrun : applyTransitions l ts = .ok l') :
    (∀ t, l.statusTimestamps.connectedAt = some t
        → l'.statusTimestamps.connectedAt = some t)
    ∧ (∀ t, l.statusTimestamps.qualifiedAt = some t
        → l'.statusTimestamps.qualifiedAt = some t)
    ∧ (∀ t, l.statusTimestamps.convertedAt = some t
        → l'.statusTimestamps.convertedAt = some t) := by
  induction ts generalizing l with
  | nil =>
    obtain rfl : l = l' := (Except.ok.injEq _ _).mp hrun
    exact ⟨fun _ h => h, fun _ h => h, fun _ h => h⟩
  | cons p rest ih =>
    obtain ⟨s, notes, t0⟩ := p
    simp only [applyTransitions] at hrun
    cases hstep : updateStatus l s notes t0 with
    | error e => rw [hstep] at hrun; cases hrun
    | ok l1 =>
      rw [hstep] at hrun
      have h1 := updateStatus_preserves_timestamps l s notes t0 l1 hstep
      have h2 := ih l1 hrun
      exact ⟨fun t ht => h2.1 t (h1.1 t ht),
             fun t ht => h2.2.1 t (h1.2.1 t ht),
             fun t ht => h2.2.2 t (h1.2.2 t ht)⟩

/-- Witness for C2: a lead whose `connectedAt` was set at time 5 is taken
through a `qualified` transition and back into `connected`; `connectedAt`
still reads 5. -/
theorem statusTimestamps_set_once_witness :
    applyTransitions
        (⟨2, "Amy Pond", "amy@x.com", "+15551234567", "connected",
          [⟨"new", 0, none⟩, ⟨"connected", 5, none⟩], ⟨some 5, none, none⟩, 0⟩ : Lead)
        [("qualified", none, 9), ("connected", none, 12)]
      = .ok (⟨2, "Amy Pond", "amy@x.com", "+15551234567", "connected",
          [⟨"new", 0, none⟩, ⟨"connected", 5, none⟩, ⟨"qualified", 9, none⟩,
            ⟨"connected", 12, none⟩], ⟨some 5, some 9, none⟩, 0⟩ : Lead)
    ∧ (⟨2, "Amy Pond", "amy@x.com", "+15551234567", "connected",
          [⟨"new", 0, none⟩, ⟨"connected", 5, none⟩, ⟨"qualified", 9, none⟩,
            ⟨"connected", 12, none⟩], ⟨some 5, some 9, none⟩, 0⟩ : Lead).statusTimestamps.connectedAt
        = some 5 :=
  ⟨by rfl,
    (statusTimestamps_set_once
      (⟨2, "Amy Pond", "amy@x.com", "+15551234567", "connected",
        [⟨"new", 0, none⟩, ⟨"connected", 5, none⟩], ⟨some 5, none, none⟩, 0⟩ : Lead)
      [("qualified", none, 9), ("connected", none, 12)]
      (⟨2, "Amy Pond", "amy@x.com", "+15551234567", "connected",
        [⟨"new", 0, none⟩, ⟨"connected", 5, none⟩, ⟨"qualified", 9, none⟩,
          ⟨"connected", 12, none⟩], ⟨some 5, some 9, none⟩, 0⟩ : Lead)
      (by rfl)).1 5 (by rfl)⟩

/-! ## Conversion funnel (Lead.js `getLeadProgressionStats`, lines 281–314)

The `conversionFunnel` facet of the aggregation groups all leads and sums
`$cond [test, 1, 0]` terms: summing a 0/1 indicator over a collection is
counting, which `List.countP` embeds exactly. -/

/-- The funnel counts returned by the `conversionFunnel` facet. -/
structure ConversionFunnel where
  total : Nat
  connected : Nat
  qualified : Nat
  converted : Nat
deriving Repr, DecidableEq

/-- Lead.js lines 281–314: total is the group size; `connected`, `qualified`
and `converted` count leads by equality tests on the **current** status. -/
def conversionFunnel (leads : List Lead) : ConversionFunnel :=
  { total := leads.length
  , connected := leads.countP (fun l =>
      l.status == "connected" || l.status == "qualified" || l.status == "converted")
  , qualified := leads.countP (fun l =>
      l.status == "qualified" || l.status == "converted")
  , converted := leads.countP (fun l => l.status == "converted") }

/-- C5: for every lead set drawn from the four-value status enum, the
funnel computed from current statuses is monotone:
`total ≥ connected ≥ qualified ≥ converted ≥ 0`. -/
theorem conversionFunnel_monotone (leads : List Lead)
    (hv : ∀ l ∈ leads, l.status ∈ validStatuses) :
    (conversionFunnel leads).total ≥ (conversionFunnel leads).connected
    ∧ (conversionFunnel leads).connected ≥ (conversionFunnel leads).qualified
    ∧ (conversionFunnel leads).qualified ≥ (conversionFunnel leads).converted
    ∧ (conversionFunnel leads).converted ≥ 0 := by
  refine ⟨List.countP_le_length _, ?_, ?_, Nat.zero_le _⟩
  · exact List.countP_mono_left (fun l _ h => by
      rcases Bool.or_eq_true_iff.mp h with h' | h' <;> simp_all)
  · exact List.countP_mono_left (fun l _ h => by simp_all)

/-- Witness for C5: a concrete population with one lead in each status. -/
theorem conversionFunnel_monotone_witness :
    (∀ l ∈ ([⟨1, "A B", "a@x.co", "1234567890", "new", [], {}, 0⟩,
             ⟨2, "C D", "c@x.co", "1234567891", "connected", [], {}, 0⟩,
             ⟨3, "E F", "e@x.co", "1234567892", "qualified", [], {}, 0⟩,
             ⟨4, "G H", "g@x.co", "1234567893", "converted", [], {}, 0⟩] : List Lead),
        l.status ∈ validStatuses)
    ∧ (conversionFunnel [⟨1, "A B", "a@x.co", "1234567890", "new", [], {}, 0⟩,
             ⟨2, "C D", "c@x.co", "1234567891", "connected", [], {}, 0⟩,
             ⟨3, "E F", "e@x.co", "1234567892", "qualified", [], {}, 0⟩,
             ⟨4, "G H", "g@x.co", "1234567893", "converted", [], {}, 0⟩]).total
        ≥ (conversionFunnel [⟨1, "A B", "a@x.co", "1234567890", "new", [], {}, 0⟩,
             ⟨2, "C D", "c@x.co", "1234567891", "connected", [], {}, 0⟩,
             ⟨3, "E F", "e@x.co", "1234567892", "qualified", [], {}, 0⟩,
             ⟨4, "G H", "g@x.co", "1234567893", "converted", [], {}, 0⟩]).connected :=
  ⟨by decide,
    (conversionFunnel_monotone
      [⟨1, "A B", "a@x.co", "1234567890", "new", [], {}, 0⟩,
       ⟨2, "C D", "c@x.co", "1234567891", "connected", [], {}, 0⟩,
       ⟨3, "E F", "e@x.co", "1234567892", "qualified", [], {}, 0⟩,
       ⟨4, "G H", "g@x.co", "1234567893", "converted", [], {}, 0⟩]
      (by decide)).1⟩

/-! ## Conversion rates (leadController.js `getLeadProgressionAnalytics`,
lines 410–416)

JS `(x).toFixed(2)` renders a number rounded to 2 decimal places; on the
rationals we embed the numeric value it denotes as rounding to hundredths. -/

/-- Rounding to 2 decimal places, the numeric value of JS `toFixed(2)`. -/
def toFixed2 (x : ℚ) : ℚ := (round (x * 100) : ℚ) / 100

/-- The four conversion-rate fields of the analytics response. -/
structure ConversionRates where
  newToConnected : ℚ
  connectedToQualified : ℚ
  qualifiedToConverted : ℚ
  overallConversion : ℚ
deriving DecidableEq

/-- leadController.js lines 410–416: each rate guards on its denominator
being positive and otherwise renders `num / den * 100` to 2 decimals. -/
def conversionRates (f : ConversionFunnel) : ConversionRates :=
  { newToConnected :=
      if f.total > 0 then toFixed2 ((f.connected : ℚ) / (f.total : ℚ) * 100) else 0
  , connectedToQualified :=
      if f.connected > 0 then toFixed2 ((f.qualified : ℚ) / (f.connected : ℚ) * 100) else 0
  , qualifiedToConverted :=
      if f.qualified > 0 then toFixed2 ((f.converted : ℚ) / (f.qualified : ℚ) * 100) else 0
  , overallConversion :=
      if f.total > 0 then toFixed2 ((f.converted : ℚ) / (f.total : ℚ) * 100) else 0 }

/-- Stated from the spec's words, for comparison with `conversionRates`:
"each a percentage to 2 decimal places, 0 when the denominator is 0". -/
def ratePercent (num den : Nat) : ℚ :=
  if den = 0 then 0 else toFixed2 ((num : ℚ) / (den : ℚ) * 100)

/-- C6: each conversion rate is the percentage `num/den` rounded to 2
decimal places — with numerators/denominators `connected/total`,
`qualified/connected`, `converted/qualified`, `converted/total` — and is 0
whenever its denominator is 0. -/
theorem conversionRates_eq_ratePercent (f : ConversionFunnel) :
    conversionRates f
      = { newToConnected := ratePercent f.connected f.total
        , connectedToQualified := ratePercent f.qualified f.connected
        , qualifiedToConverted := ratePercent f.converted f.qualified
        , overallConversion := ratePercent f.converted f.total } := by
  unfold conversionRates ratePercent
  congr 1 <;> rcases Nat.eq_zero_or_pos f.total with h | h <;>
    rcases Nat.eq_zero_or_pos f.connected with h2 | h2 <;>
    rcases Nat.eq_zero_or_pos f.qualified with h3 | h3 <;>
    simp_all [Nat.pos_iff_ne_zero]

/-! ## Per-lead progression metrics (Lead.js `getProgressionMetrics`,
lines 387–413)

`metrics.timeInEachStatus` is a plain JS object written by key assignment:
assigning an existing key overwrites its value.  We embed it as an
association list with `objSet` / `objGet` carrying exactly those
semantics, and the `for` loop over indices with a defined `next` as a fold
over the list of consecutive history pairs. -/

/-- JS object key assignment: overwrite the value when the key exists,
append the binding otherwise. -/
def objSet (m : List (String × Int)) (k : String) (v : Int) : List (String × Int) :=
  match m with
  | [] => [(k, v)]
  | (k', v') :: rest => if k' = k then (k', v) :: rest else (k', v') :: objSet rest k v

/-- JS object key lookup. -/
def objGet (m : List (String × Int)) (k : String) : Option Int :=
  match m with
  | [] => none
  | (k', v') :: rest => if k' = k then some v' else objGet rest k

/-- The consecutive pairs `(history[i], history[i+1])` visited by the loop
indices for which `next` is defined. -/
def consecutivePairs : List HistoryEntry → List (HistoryEntry × HistoryEntry)
  | a :: b :: rest => (a, b) :: consecutivePairs (b :: rest)
  | _ => []

/-- The duration `next.timestamp - current.timestamp` of one pair. -/
def durOf (p : HistoryEntry × HistoryEntry) : Int :=
  (p.2.timestamp : Int) - (p.1.timestamp : Int)

/-- The `timeInEachStatus` object after the loop: each pair writes its
duration under the key `current.status`. -/
def buildDurations (h : List HistoryEntry) : List (String × Int) :=
  (consecutivePairs h).foldl (fun m p => objSet m p.1.status (durOf p)) []

/-- The metrics record built by `getProgressionMetrics`. -/
structure ProgressionMetrics where
  totalProgressions : Nat
  timeInEachStatus : List (String × Int)
  currentStatusDuration : Option Int
deriving Repr, DecidableEq

/-- Lead.js lines 387–413: `null` for an absent/empty history; otherwise
`totalProgressions = length - 1`, the per-status duration object from the
loop, and `currentStatusDuration = now - timestamp[last]` written by the
loop iteration whose `next` is undefined. -/
def getProgressionMetrics (l : Lead) (now : Nat) : Option ProgressionMetrics :=
  if l.statusHistory.length = 0 then none
  else some
    { totalProgressions := l.statusHistory.length - 1
    , timeInEachStatus := buildDurations l.statusHistory
    , currentStatusDuration :=
        l.statusHistory.getLast?.map (fun e => (now : Int) - (e.timestamp : Int)) }

/-- Stated from the spec's words, for comparison with the loop's object:
the duration of the most recent consecutive pair whose first entry carries
status `s` (last write wins, not a sum). -/
def lastDurationFor (h : List HistoryEntry) (s : String) : Option Int :=
  ((consecutivePairs h).filterMap
    (fun p => if p.1.status = s then some (durOf p) else none)).getLast?

theorem objGet_objSet_self (m : List (String × Int)) (k : String) (v : Int) :
    objGet (objSet m k v) k = some v := by
  induction m with
  | nil => simp [objSet, objGet]
  | cons kv rest ih =>
    obtain ⟨k', v'⟩ := kv
    by_cases h : k' = k <;> simp [objSet, objGet, h, ih]

theorem objGet_objSet_ne (m : List (String × Int)) (k k' : String) (v : Int)
    (h : k' ≠ k) : objGet (objSet m k v) k' = objGet m k' := by
  induction m with
  | nil => simp [objSet, objGet, Ne.symm h]
  | cons kv rest ih =>
    obtain ⟨k'', v''⟩ := kv
    by_cases h2 : k'' = k <;> by_cases h3 : k'' = k' <;>
      simp_all [objSet, objGet, Ne.symm h]

theorem objGet_foldl_objSet (ps : List (HistoryEntry × HistoryEntry))
    (m : List (String × Int)) (s : String) :
    objGet (ps.foldl (fun m p => objSet m p.1.status (durOf p)) m) s
      = ((ps.filterMap
          (fun p => if p.1.status = s then some (durOf p) else none)).getLast?).or
        (objGet m s) := by
  induction ps generalizing m with
  | nil => simp
  | cons p ps ih =>
    simp only [List.foldl_cons, List.filterMap_cons]
    by_cases hp : p.1.status = s
    · rw [if_pos hp, ih]
      cases hl : (ps.filterMap
          (fun p => if p.1.status = s then some (durOf p) else none)).getLast? with
      | none =>
        have : ps.filterMap
            (fun p => if p.1.status = s then some (durOf p) else none) = [] :=
          List.getLast?_eq_none_iff.mp hl
        rw [this]
        simp only [List.getLast?_nil, Option.none_or, List.getLast?_singleton]
        rw [hp]
        exact objGet_objSet_self m s (durOf p)
      | some w =>
        rw [List.getLast?_cons, hl]
        simp
    · rw [if_neg hp, ih, objGet_objSet_ne m p.1.status s (durOf p) (Ne.symm hp)]

/-- C7: `getProgressionMetrics` returns `null` exactly when the status
history is empty; otherwise `totalProgressions` is the history length minus
one, and the per-status duration object maps each status to the duration of
the most recent consecutive pair starting at that status (last write wins,
not a sum). -/
theorem getProgressionMetrics_spec (l : Lead) (now : Nat) :
    (getProgressionMetrics l now = none ↔ l.statusHistory = [])
    ∧ ∀ m, getProgressionMetrics l now = some m →
        m.totalProgressions = l.statusHistory.length - 1
        ∧ ∀ s, objGet m.timeInEachStatus s = lastDurationFor l.statusHistory s := by
  constructor
  · unfold getProgressionMetrics
    constructor
    · intro h
      rcases Nat.eq_zero_or_pos l.statusHistory.length with hz | hz
      · exact List.length_eq_zero.mp hz
      · rw [if_neg (by omega)] at h; cases h
    · intro h; rw [if_pos (by simp [h])]
  · intro m hm
    unfold getProgressionMetrics at hm
    rcases Nat.eq_zero_or_pos l.statusHistory.length with hz | hz
    · rw [if_pos hz] at hm; cases hm
    · rw [if_neg (by omega)] at hm
      obtain rfl : m = _ := (Option.some.injEq _ _).mp hm.symm
      refine ⟨rfl, fun s => ?_⟩
      show objGet (buildDurations l.statusHistory) s = lastDurationFor l.statusHistory s
      rw [buildDurations, objGet_foldl_objSet, lastDurationFor]
      simp [objGet]

/-- Witness for C7: history `new@0 → connected@3 → new@10 → converted@14`;
with `new` recurring non-adjacently, the metrics of this lead satisfy the
theorem's conclusion, and the last `new` duration (4, not 3 and not 7) is
the one recorded. -/
theorem getProgressionMetrics_spec_witness :
    getProgressionMetrics
        (⟨7, "Rory W", "rory@x.co", "5550001111", "converted",
          [⟨"new", 0, none⟩, ⟨"connected", 3, none⟩, ⟨"new", 10, none⟩,
            ⟨"converted", 14, none⟩], {}, 0⟩ : Lead) 20
      = some ⟨3, [("new", 4), ("connected", 7)], some 6⟩
    ∧ (⟨3, [("new", 4), ("connected", 7)], some 6⟩ : ProgressionMetrics).totalProgressions
        = (⟨7, "Rory W", "rory@x.co", "5550001111", "converted",
            [⟨"new", 0, none⟩, ⟨"connected", 3, none⟩, ⟨"new", 10, none⟩,
              ⟨"converted", 14, none⟩], {}, 0⟩ : Lead).statusHistory.length - 1
    ∧ objGet (⟨3, [("new", 4), ("connected", 7)], some 6⟩
          : ProgressionMetrics).timeInEachStatus "new"
        = lastDurationFor
            (⟨7, "Rory W", "rory@x.co", "5550001111", "converted",
              [⟨"new", 0, none⟩, ⟨"connected", 3, none⟩, ⟨"new", 10, none⟩,
                ⟨"converted", 14, none⟩], {}, 0⟩ : Lead).statusHistory "new" :=
  ⟨by rfl,
    ((getProgressionMetrics_spec
        (⟨7, "Rory W", "rory@x.co", "5550001111", "converted",
          [⟨"new", 0, none⟩, ⟨"connected", 3, none⟩, ⟨"new", 10, none⟩,
            ⟨"converted", 14, none⟩], {}, 0⟩ : Lead) 20).2
      ⟨3, [("new", 4), ("connected", 7)], some 6⟩ (by rfl)).1,
    ((getProgressionMetrics_spec
        (⟨7, "Rory W", "rory@x.co", "5550001111", "converted",
          [⟨"new", 0, none⟩, ⟨"connected", 3, none⟩, ⟨"new", 10, none⟩,
            ⟨"converted", 14, none⟩], {}, 0⟩ : Lead) 20).2
      ⟨3, [("new", 4), ("connected", 7)], some 6⟩ (by rfl)).2 "new"⟩

/-! ## Average progression times (Lead.js `getLeadProgressionStats`,
lines 317–359)

The `averageProgressionTimes` facet first `$match`es leads having at least
one stage timestamp, then takes `$avg` of `$cond`-guarded differences;
`$avg` ignores the `null` branch of the `$cond` and is itself `null` when
no value remains.  Durations are rationals (milliseconds). -/

/-- Aggregation `$avg` over the group: the mean of the collected values, null when
there are none. -/
def avgOrNull (xs : List ℚ) : Option ℚ :=
  if xs.length = 0 then none else some (xs.sum / (xs.length : ℚ))

/-- The `$match` stage (Lead.js lines 319–326): at least one of the three
stage timestamps exists. -/
def hasAnyStageTimestamp (l : Lead) : Bool :=
  l.statusTimestamps.connectedAt.isSome || l.statusTimestamps.qualifiedAt.isSome
    || l.statusTimestamps.convertedAt.isSome

/-- The values fed to one `$avg` (Lead.js lines 330–356): for each lead
whose given stage timestamp is non-null, `stageTimestamp - createdAt`;
leads with a null timestamp contribute nothing. -/
def stageDurations (stamp : Lead → Option Nat) (leads : List Lead) : List ℚ :=
  leads.filterMap
    (fun l => Option.map (fun t : Nat => (t : ℚ) - (l.createdAt : ℚ)) (stamp l))

/-- The three averages of the `averageProgressionTimes` facet. -/
structure AverageProgressionTimes where
  avgTimeToConnect : Option ℚ
  avgTimeToQualify : Option ℚ
  avgTimeToConvert : Option ℚ
deriving DecidableEq

/-- Lead.js lines 317–359: match, then average each stage's durations. -/
def averageProgressionTimes (leads : List Lead) : AverageProgressionTimes :=
  { avgTimeToConnect :=
      avgOrNull (stageDurations (fun l => l.statusTimestamps.connectedAt)
        (leads.filter hasAnyStageTimestamp))
  , avgTimeToQualify :=
      avgOrNull (stageDurations (fun l => l.statusTimestamps.qualifiedAt)
        (leads.filter hasAnyStageTimestamp))
  , avgTimeToConvert :=
      avgOrNull (stageDurations (fun l => l.statusTimestamps.convertedAt)
        (leads.filter hasAnyStageTimestamp)) }

/-- Stated from the spec's words, for comparison: the mean of
`stageTimestamp - createdAt` over exactly the leads where that particular
stage timestamp is set, leads missing it excluded (not counted as zero). -/
def meanOverLeadsWithStage (stamp : Lead → Option Nat) (leads : List Lead) :
    Option ℚ :=
  avgOrNull ((leads.filter (fun l => (stamp l).isSome)).map
    (fun l => (((stamp l).getD 0 : Nat) : ℚ) - (l.createdAt : ℚ)))

theorem stageDurations_cons_none {stamp : Lead → Option Nat} {l : Lead}
    {rest : List Lead} (hs : stamp l = none) :
    stageDurations stamp (l :: rest) = stageDurations stamp rest := by
  simp [stageDurations, List.filterMap_cons, hs]

theorem stageDurations_cons_some {stamp : Lead → Option Nat} {l : Lead}
    {rest : List Lead} {t : Nat} (hs : stamp l = some t) :
    stageDurations stamp (l :: rest)
      = ((t : ℚ) - (l.createdAt : ℚ)) :: stageDurations stamp rest := by
  simp [stageDurations, List.filterMap_cons, hs]

theorem stageDurations_filter (stamp : Lead → Option Nat) (p : Lead → Bool)
    (leads : List Lead) (h : ∀ l, (stamp l).isSome → p l) :
    stageDurations stamp (leads.filter p) = stageDurations stamp leads := by
  induction leads with
  | nil => rfl
  | cons l rest ih =>
    by_cases hp : p l
    · rw [List.filter_cons, if_pos hp]
      cases hs : stamp l with
      | none => rw [stageDurations_cons_none hs, stageDurations_cons_none hs, ih]
      | some t => rw [stageDurations_cons_some hs, stageDurations_cons_some hs, ih]
    · have hn : stamp l = none := by
        cases hs : stamp l with
        | none => rfl
        | some t => exact absurd (h l (by simp [hs])) (by simp [hp])
      rw [List.filter_cons, if_neg (by simp [hp]), stageDurations_cons_none hn, ih]

theorem stageDurations_eq_map_filter (stamp : Lead → Option Nat)
    (leads : List Lead) :
    stageDurations stamp leads
      = (leads.filter (fun l => (stamp l).isSome)).map
          (fun l => (((stamp l).getD 0 : Nat) : ℚ) - (l.createdAt : ℚ)) := by
  induction leads with
  | nil => rfl
  | cons l rest ih =>
    cases hs : stamp l with
    | none =>
      rw [stageDurations_cons_none hs, List.filter_cons, if_neg (by simp [hs]), ih]
    | some t =>
      rw [stageDurations_cons_some hs, List.filter_cons, if_pos (by simp [hs]),
        List.map_cons, ih]
      simp [hs]

/-- C8: the computed averages restrict to leads with at least one stage
timestamp, and each of the three averages is the mean of
`stageTimestamp - createdAt` over exactly the leads where that stage
timestamp is set — a lead missing that timestamp is excluded from that
average, not counted as zero. -/
theorem averageProgressionTimes_spec (leads : List Lead) :
    averageProgressionTimes leads
      = { avgTimeToConnect :=
            meanOverLeadsWithStage (fun l => l.statusTimestamps.connectedAt) leads
        , avgTimeToQualify :=
            meanOverLeadsWithStage (fun l => l.statusTimestamps.qualifiedAt) leads
        , avgTimeToConvert :=
            meanOverLeadsWithStage (fun l => l.statusTimestamps.convertedAt) leads } := by
  have hc : ∀ l : Lead, (l.statusTimestamps.connectedAt).isSome → hasAnyStageTimestamp l :=
    fun l h => by simp [hasAnyStageTimestamp, h]
  have hq : ∀ l : Lead, (l.statusTimestamps.qualifiedAt).isSome → hasAnyStageTimestamp l :=
    fun l h => by simp [hasAnyStageTimestamp, h]
  have hv : ∀ l : Lead, (l.statusTimestamps.convertedAt).isSome → hasAnyStageTimestamp l :=
    fun l h => by simp [hasAnyStageTimestamp, h]
  unfold averageProgressionTimes meanOverLeadsWithStage
  rw [stageDurations_filter _ _ leads hc, stageDurations_eq_map_filter,
    stageDurations_filter _ _ leads hq, stageDurations_eq_map_filter,
    stageDurations_filter _ _ leads hv, stageDurations_eq_map_filter]

/-! ## Bulk status update (leadController.js `bulkUpdateLeadStatus`,
lines 506–586)

The handler validates the request, loads the leads whose ids are in the
requested list, and runs the per-lead loop, collecting per-item successes
and per-item errors; ids that resolve to no lead never enter the loop. -/

/-- One per-item success record (leadController.js lines 553–560).  The
source pushes `oldStatus: lead.status` after `await lead.updateStatus(...)`
has already mutated `lead`, so the fields are read from the updated
document. -/
structure BulkSuccessItem where
  id : Nat
  name : String
  email : String
  oldStatus : String
  newStatus : String
deriving Repr, DecidableEq

/-- One per-item error record (leadController.js lines 562–568). -/
structure BulkErrorItem where
  id : Nat
  name : String
  email : String
  error : String
deriving Repr, DecidableEq

/-- The response summary (leadController.js lines 578–583). -/
structure BulkSummary where
  requested : Nat
  found : Nat
  successful : Nat
  failed : Nat
deriving Repr, DecidableEq

/-- The `data` object of the 200 response (lines 575–584). -/
structure BulkResponseData where
  successful : List BulkSuccessItem
  failed : List BulkErrorItem
  summary : BulkSummary
deriving Repr, DecidableEq

/-- The possible responses of the handler. -/
inductive BulkResult where
  | badRequest (message : String)
  | notFound (message : String)
  | ok (data : BulkResponseData)
deriving Repr, DecidableEq

/-- The loop body (leadController.js lines 551–570): try the single-lead
transition; on success push a success record read from the mutated lead,
on a thrown error push an error record; either way continue the loop. -/
def bulkStep (status : String) (notes : Option String) (now : Nat)
    (acc : List BulkSuccessItem × List BulkErrorItem) (lead : Lead) :
    List BulkSuccessItem × List BulkErrorItem :=
  match updateStatus lead status notes now with
  | .ok updated =>
      (acc.1 ++ [{ id := updated.id, name := updated.name, email := updated.email
                 , oldStatus := updated.status, newStatus := status }], acc.2)
  | .error e =>
      (acc.1, acc.2 ++ [{ id := lead.id, name := lead.name, email := lead.email
                        , error := e }])

/-- leadController.js lines 506–586: input validation, the `$in` lookup,
the per-lead loop and the summarised response. -/
def bulkUpdateLeadStatus (db : List Lead) (leadIds : List Nat) (status : String)
    (notes : Option String) (now : Nat) : BulkResult :=
  if leadIds.length = 0 then
    .badRequest "leadIds array is required and must not be empty"
  else if !(validStatuses.contains status) then
    .badRequest ("Invalid status. Must be one of: "
      ++ String.intercalate ", " validStatuses)
  else if leadIds.length > 100 then
    .badRequest "Cannot update more than 100 leads at once"
  else
    let leads := db.filter (fun l => leadIds.contains l.id)
    if leads.length = 0 then
      .notFound "No leads found with the provided IDs"
    else
      let res := leads.foldl (bulkStep status notes now) ([], [])
      .ok { successful := res.1, failed := res.2
          , summary := { requested := leadIds.length, found := leads.length
                       , successful := res.1.length, failed := res.2.length } }

theorem updateStatus_ok_status (l : Lead) (s : String) (notes : Option String)
    (now : Nat) (l' : Lead) (h : updateStatus l s notes now = .ok l') :
    l'.status = s := by
  by_cases hs : validStatuses.contains s
  · rw [updateStatus_eq_of_valid l s notes now hs] at h
    obtain rfl := saveLead_ok _ _ h
    rw [preSaveStatus_status]
  · have hs' : ¬ s ∈ validStatuses := by simpa using hs
    simp [updateStatus, hs'] at h

theorem foldl_bulkStep_partition (status : String) (notes : Option String)
    (now : Nat) (leads : List Lead)
    (acc : List BulkSuccessItem × List BulkErrorItem) :
    (leads.foldl (bulkStep status notes now) acc).1.length
        + (leads.foldl (bulkStep status notes now) acc).2.length
      = acc.1.length + acc.2.length + leads.length := by
  induction leads generalizing acc with
  | nil => rfl
  | cons l rest ih =>
    simp only [List.foldl_cons]
    cases hu : updateStatus l status notes now with
    | ok updated =>
      have hstep : ∃ item, bulkStep status notes now acc l
          = (acc.1 ++ [item], acc.2) := by
        rw [bulkStep, hu]
        exact ⟨_, rfl⟩
      obtain ⟨item, hstep⟩ := hstep
      rw [hstep, ih]
      have e1 : (acc.1 ++ [item], acc.2).1.length = acc.1.length + 1 := by simp
      have e2 : (acc.1 ++ [item], acc.2).2.length = acc.2.length := rfl
      have e3 : (l :: rest).length = rest.length + 1 := by simp
      omega
    | error e =>
      have hstep : ∃ item, bulkStep status notes now acc l
          = (acc.1, acc.2 ++ [item]) := by
        rw [bulkStep, hu]
        exact ⟨_, rfl⟩
      obtain ⟨item, hstep⟩ := hstep
      rw [hstep, ih]
      have e1 : (acc.1, acc.2 ++ [item]).1.length = acc.1.length := rfl
      have e2 : (acc.1, acc.2 ++ [item]).2.length = acc.2.length + 1 := by simp
      have e3 : (l :: rest).length = rest.length + 1 := by simp
      omega

theorem mem_foldl_bulkStep (status : String) (notes : Option String)
    (now : Nat) (leads : List Lead)
    (acc : List BulkSuccessItem × List BulkErrorItem) :
    ∀ item ∈ (leads.foldl (bulkStep status notes now) acc).1,
      item ∈ acc.1 ∨ item.oldStatus = status := by
  induction leads generalizing acc with
  | nil => exact fun item h => Or.inl h
  | cons l rest ih =>
    intro item hitem
    simp only [List.foldl_cons] at hitem
    rcases ih (bulkStep status notes now acc l) item hitem with h | h
    · unfold bulkStep at h
      cases hu : updateStatus l status notes now with
      | ok updated =>
        rw [hu] at h
        rcases List.mem_append.mp h with h' | h'
        · exact Or.inl h'
        · right
          have : item = { id := updated.id, name := updated.name
                        , email := updated.email, oldStatus := updated.status
                        , newStatus := status } := List.mem_singleton.mp h'
          rw [this]
          exact updateStatus_ok_status l status notes now updated hu
      | error e =>
        rw [hu] at h
        exact Or.inl h
    · exact Or.inr h

/-- C10: in every successful bulk response, each per-item success record's
`oldStatus` equals the requested new status (not the lead's pre-transition
status), because `lead.status` is read only after `updateStatus` has
mutated the lead. -/
theorem bulk_oldStatus_eq_requested (db : List Lead) (leadIds : List Nat)
    (status : String) (notes : Option String) (now : Nat)
    (d : BulkResponseData)
    (h : bulkUpdateLeadStatus db leadIds status notes now = .ok d) :
    ∀ item ∈ d.successful, item.oldStatus = status := by
  simp only [bulkUpdateLeadStatus] at h
  split_ifs at h <;> cases h
  intro item hitem
  rcases mem_foldl_bulkStep status notes now _ ([], []) item hitem with h' | h'
  · exact absurd h' (List.not_mem_nil item)
  · exact h'

/-- C4 counterexample: 3 identifiers resolving to existing leads plus the
identifier 4 resolving to no lead, with valid target status `"converted"` —
the response reports 3 successes but **0** failures (not 1): the
nonexistent identifier produces no per-item outcome at all, being visible
only as `requested - found`. -/
theorem bulkUpdateLeadStatus_missing_id_counterexample :
    bulkUpdateLeadStatus
        [⟨1, "Ann Ax", "ann@x.co", "5550000001", "new", [⟨"new", 0, none⟩], {}, 0⟩,
         ⟨2, "Bob By", "bob@x.co", "5550000002", "new", [⟨"new", 0, none⟩], {}, 0⟩,
         ⟨3, "Cal Cz", "cal@x.co", "5550000003", "new", [⟨"new", 0, none⟩], {}, 0⟩]
        [1, 2, 3, 4] "converted" none 10
      = .ok { successful :=
                [⟨1, "Ann Ax", "ann@x.co", "converted", "converted"⟩,
                 ⟨2, "Bob By", "bob@x.co", "converted", "converted"⟩,
                 ⟨3, "Cal Cz", "cal@x.co", "converted", "converted"⟩]
            , failed := []
            , summary := { requested := 4, found := 3, successful := 3, failed := 0 } } := by
  rfl

/-- C4 amended: an identifier that resolves to no lead produces no
per-item outcome at all — it is visible only as `requested - found` — while
among the found leads every item's outcome (success, or the error its
update/save throws, e.g. a save-time validation rejection) is collected per
item: the success and failure lists partition the found leads, the summary
reports requested/found and the two list lengths, and a per-item error
never fails the whole batch; in the concrete scenario of 3 resolving
identifiers plus 1 nonexistent one with valid target `"converted"` and no
note, the response reports 3 successes, 0 failures, found 3, requested 4. -/
theorem bulkUpdateLeadStatus_outcomes :
    (∀ (db : List Lead) (leadIds : List Nat) (status : String)
        (notes : Option String) (now : Nat),
        leadIds.length ≠ 0
        → validStatuses.contains status
        → ¬ leadIds.length > 100
        → (db.filter (fun l => leadIds.contains l.id)).length ≠ 0
        → ∃ d, bulkUpdateLeadStatus db leadIds status notes now = .ok d
            ∧ d.successful.length + d.failed.length
                = (db.filter (fun l => leadIds.contains l.id)).length
            ∧ d.summary
                = { requested := leadIds.length
                  , found := (db.filter (fun l => leadIds.contains l.id)).length
                  , successful := d.successful.length
                  , failed := d.failed.length })
    ∧ bulkUpdateLeadStatus
        [⟨1, "Ann Ax", "ann@x.co", "5550000001", "new", [⟨"new", 0, none⟩], {}, 0⟩,
         ⟨2, "Bob By", "bob@x.co", "5550000002", "new", [⟨"new", 0, none⟩], {}, 0⟩,
         ⟨3, "Cal Cz", "cal@x.co", "5550000003", "new", [⟨"new", 0, none⟩], {}, 0⟩]
        [1, 2, 3, 4] "converted" none 10
      = .ok { successful :=
                [⟨1, "Ann Ax", "ann@x.co", "converted", "converted"⟩,
                 ⟨2, "Bob By", "bob@x.co", "converted", "converted"⟩,
                 ⟨3, "Cal Cz", "cal@x.co", "converted", "converted"⟩]
            , failed := []
            , summary := { requested := 4, found := 3, successful := 3, failed := 0 } } := by
  constructor
  · intro db leadIds status notes now h1 h2 h3 h4
    have hmain : bulkUpdateLeadStatus db leadIds status notes now
        = .ok { successful := (List.foldl (bulkStep status notes now) ([], [])
                  (db.filter (fun l => leadIds.contains l.id))).1
              , failed := (List.foldl (bulkStep status notes now) ([], [])
                  (db.filter (fun l => leadIds.contains l.id))).2
              , summary := { requested := leadIds.length
                           , found := (db.filter (fun l => leadIds.contains l.id)).length
                           , successful := (List.foldl (bulkStep status notes now) ([], [])
                               (db.filter (fun l => leadIds.contains l.id))).1.length
                           , failed := (List.foldl (bulkStep status notes now) ([], [])
                               (db.filter (fun l => leadIds.contains l.id))).2.length } } := by
      simp only [bulkUpdateLeadStatus]
      rw [if_neg h1, if_neg (by rw [h2]; simp), if_neg h3, if_neg h4]
    refine ⟨_, hmain, ?_, rfl⟩
    have hp := foldl_bulkStep_partition status notes now
      (db.filter (fun l => leadIds.contains l.id)) ([], [])
    simpa using hp
  · rfl

/-- Witness for the amended C4: the 3-found-plus-1-missing scenario
instantiates the general outcome-collection statement. -/
theorem bulkUpdateLeadStatus_outcomes_witness :
    ([1, 2, 3, 4] : List Nat).length ≠ 0
    ∧ validStatuses.contains "converted"
    ∧ ¬ ([1, 2, 3, 4] : List Nat).length > 100
    ∧ (([⟨1, "Ann Ax", "ann@x.co", "5550000001", "new", [⟨"new", 0, none⟩], {}, 0⟩,
         ⟨2, "Bob By", "bob@x.co", "5550000002", "new", [⟨"new", 0, none⟩], {}, 0⟩,
         ⟨3, "Cal Cz", "cal@x.co", "5550000003", "new", [⟨"new", 0, none⟩], {}, 0⟩]
          : List Lead).filter
            (fun l => ([1, 2, 3, 4] : List Nat).contains l.id)).length ≠ 0
    ∧ ∃ d, bulkUpdateLeadStatus
          [⟨1, "Ann Ax", "ann@x.co", "5550000001", "new", [⟨"new", 0, none⟩], {}, 0⟩,
           ⟨2, "Bob By", "bob@x.co", "5550000002", "new", [⟨"new", 0, none⟩], {}, 0⟩,
           ⟨3, "Cal Cz", "cal@x.co", "5550000003", "new", [⟨"new", 0, none⟩], {}, 0⟩]
          [1, 2, 3, 4] "converted" none 10 = .ok d
        ∧ d.successful.length + d.failed.length
            = (([⟨1, "Ann Ax", "ann@x.co", "5550000001", "new", [⟨"new", 0, none⟩], {}, 0⟩,
                 ⟨2, "Bob By", "bob@x.co", "5550000002", "new", [⟨"new", 0, none⟩], {}, 0⟩,
                 ⟨3, "Cal Cz", "cal@x.co", "5550000003", "new", [⟨"new", 0, none⟩], {}, 0⟩]
                  : List Lead).filter
                    (fun l => ([1, 2, 3, 4] : List Nat).contains l.id)).length
        ∧ d.summary
            = { requested := ([1, 2, 3, 4] : List Nat).length
              , found := (([⟨1, "Ann Ax", "ann@x.co", "5550000001", "new", [⟨"new", 0, none⟩], {}, 0⟩,
                   ⟨2, "Bob By", "bob@x.co", "5550000002", "new", [⟨"new", 0, none⟩], {}, 0⟩,
                   ⟨3, "Cal Cz", "cal@x.co", "5550000003", "new", [⟨"new", 0, none⟩], {}, 0⟩]
                    : List Lead).filter
                      (fun l => ([1, 2, 3, 4] : List Nat).contains l.id)).length
              , successful := d.successful.length
              , failed := d.failed.length } :=
  ⟨by decide, by decide, by decide, by decide,
    (bulkUpdateLeadStatus_outcomes).1
      [⟨1, "Ann Ax", "ann@x.co", "5550000001", "new", [⟨"new", 0, none⟩], {}, 0⟩,
       ⟨2, "Bob By", "bob@x.co", "5550000002", "new", [⟨"new", 0, none⟩], {}, 0⟩,
       ⟨3, "Cal Cz", "cal@x.co", "5550000003", "new", [⟨"new", 0, none⟩], {}, 0⟩]
      [1, 2, 3, 4] "converted" none 10
      (by decide) (by decide) (by decide) (by decide)⟩

/-- Witness for C10: one lead currently `"new"` bulk-updated to
`"qualified"`; the success record's `oldStatus` reads `"qualified"`, the
requested status, not the pre-transition `"new"`. -/
theorem bulk_oldStatus_eq_requested_witness :
    bulkUpdateLeadStatus
        [⟨8, "Dee Dx", "dee@x.co", "5550000008", "new", [⟨"new", 0, none⟩], {}, 0⟩]
        [8] "qualified" none 4
      = .ok { successful := [⟨8, "Dee Dx", "dee@x.co", "qualified", "qualified"⟩]
            , failed := []
            , summary := { requested := 1, found := 1, successful := 1, failed := 0 } }
    ∧ (⟨8, "Dee Dx", "dee@x.co", "qualified", "qualified"⟩ : BulkSuccessItem)
        ∈ ({ successful := [⟨8, "Dee Dx", "dee@x.co", "qualified", "qualified"⟩]
           , failed := []
           , summary := { requested := 1, found := 1, successful := 1, failed := 0 } }
            : BulkResponseData).successful
    ∧ (⟨8, "Dee Dx", "dee@x.co", "qualified", "qualified"⟩ : BulkSuccessItem).oldStatus
        = "qualified" :=
  ⟨by rfl, by decide,
    bulk_oldStatus_eq_requested
      [⟨8, "Dee Dx", "dee@x.co", "5550000008", "new", [⟨"new", 0, none⟩], {}, 0⟩]
      [8] "qualified" none 4
      { successful := [⟨8, "Dee Dx", "dee@x.co", "qualified", "qualified"⟩]
      , failed := []
      , summary := { requested := 1, found := 1, successful := 1, failed := 0 } }
      (by rfl)
      ⟨8, "Dee Dx", "dee@x.co", "qualified", "qualified"⟩ (by decide)⟩

end LeadMgmt
